import Mathlib

/-!
Verification development for the `rolefit_analyzer_agent` pipeline core
(`rolefit_analyzer_agent/agent.py`).  The Python tool functions
`search_memory` and `read_pdf`, the shared retry configuration attached to
the four reasoning agents, and the get-or-create session sequence from
`main` are embedded shallowly: Python strings become lists of characters,
Python `int` parameters become `Int` (with Python's negative-index slice
semantics made explicit), the session state dictionary becomes an
insertion-ordered association list, and fallible operations return an
explicit result type.
-/

namespace RoleFit

/-- Python `str` values are modelled as lists of characters. -/
abbrev Str := List Char

/-- The Boolean test that the second string is a leading segment of the
first; this is the primitive under substring search (`q in s`, `s.find(q)`). -/
def startsWith : Str → Str → Bool
  | _, [] => true
  | [], _ :: _ => false
  | c :: s, d :: q => c = d && startsWith s q

/-- Index of the first occurrence of `q` in `s`, scanning left to right
(`none` when `q` does not occur).  Underlies Python `str.find`. -/
def findIn (q : Str) : Str → Option Nat
  | [] => if startsWith [] q then some 0 else none
  | c :: s => if startsWith (c :: s) q then some 0 else (findIn q s).map (· + 1)

/-- Python `t.find(q, start)`: the smallest index `≥ start` at which `q`
occurs in `t`, or `none` (Python returns `-1`). -/
def findFrom (t q : Str) (start : Nat) : Option Nat :=
  if start ≤ t.length then (findIn q (t.drop start)).map (· + start) else none

/-- Resolve a Python slice endpoint for a string of length `len`: a
negative endpoint counts from the end of the string, and endpoints are
clamped to `[0, len]`. -/
def pyIdx (len : Nat) (i : Int) : Nat :=
  if i < 0 then ((len : Int) + i).toNat else min i.toNat len

/-- Python slice `t[a:b]` with `int` endpoints. -/
def pySlice (t : Str) (a b : Int) : Str :=
  (t.take (pyIdx t.length b)).drop (pyIdx t.length a)

/-- Python prefix slice `t[:b]` with an `int` endpoint. -/
def pySliceTo (t : Str) (b : Int) : Str :=
  t.take (pyIdx t.length b)

/-- Python `str.strip()` with no arguments: drop whitespace from both
ends.  (Python's whitespace set is modelled by `Char.isWhitespace`.) -/
def pyStrip (s : Str) : Str :=
  ((s.dropWhile Char.isWhitespace).reverse.dropWhile Char.isWhitespace).reverse

/-- Python `str.lower()` (ASCII case mapping suffices for the keys the
program uses). -/
def pyLower (s : Str) : Str := s.map Char.toLower

/-- Python `needle in hay` substring containment. -/
def containsSub (hay needle : Str) : Bool := (findIn needle hay).isSome

/-- A value stored in `tool_context.state`: a string, or some non-string
value (`search_memory` only cares about the `isinstance(v, str)` split). -/
inductive Value where
  | str (s : Str)
  | other
deriving DecidableEq

/-- The session state dictionary `tool_context.state`: string-keyed, in
insertion order.  Lookups take the first binding for a key. -/
abbrev Ctx := List (Str × Value)

/-- Python `state.get(key)` (`none` models an absent key). -/
def ctxGet : Ctx → Str → Option Value
  | [], _ => none
  | (k', v') :: rest, k => if k' = k then some v' else ctxGet rest k

/-- Python `state[key] = v`: overwrite the first binding in place, or
append a new binding (dict insertion-order semantics). -/
def ctxSet : Ctx → Str → Value → Ctx
  | [], k, v => [(k, v)]
  | (k', v') :: rest, k, v => if k' = k then (k, v) :: rest else (k', v') :: ctxSet rest k v

/-- One snippet dictionary from `search_memory`:
`{"text": ..., "start": idx, "end": idx + len(q)}` (agent.py line 153). -/
structure Snippet where
  text : Str
  start : Nat
  «end» : Nat
deriving DecidableEq

/-- One per-key entry of the `matches` list:
`{"memory_key": key, "snippets": snippets}` (agent.py line 159). -/
structure KeyMatches where
  memory_key : Str
  snippets : List Snippet
deriving DecidableEq

/-- The dictionary `search_memory` returns: either
`{"status": "error", "error_message": ...}` or
`{"status": "success", "query": q, "matches": ...}`. -/
inductive SearchResult where
  | error (error_message : Str)
  | success (query : Str) («matches» : List KeyMatches)
deriving DecidableEq

/-- The error message of an error-status result, `none` on success. -/
def SearchResult.errMsg : SearchResult → Option Str
  | .error m => some m
  | .success _ _ => none

/-- The snippet built for a match at index `idx` (agent.py lines 150-153):
`s = max(0, idx - snippet_radius)`,
`e = min(len(text), idx + len(q) + snippet_radius)`,
`{"text": text[s:e], "start": idx, "end": idx + len(q)}`. -/
def mkSnippet (text q : Str) (snippet_radius : Int) (idx : Nat) : Snippet :=
  ⟨pySlice text (max 0 ((idx : Int) - snippet_radius))
      (min (text.length : Int) ((idx : Int) + (q.length : Int) + snippet_radius)),
    idx, idx + q.length⟩

/-- The per-key scan loop of `search_memory` (agent.py lines 143-157):
repeatedly `find` the query from `start`, append a snippet built from the
radius window around the match, stop once `found_count` reaches
`max_snippets`, and otherwise resume immediately after the match end.
`fuel` bounds the iteration count; the caller passes `text.length + 1`,
which always suffices for the non-empty queries reaching this loop since
every iteration advances `start` by at least `q.length ≥ 1`. -/
def scanKey (fuel : Nat) (text q : Str) (max_snippets snippet_radius : Int)
    (start found_count : Nat) : List Snippet :=
  match fuel with
  | 0 => []
  | fuel + 1 =>
    match findFrom text q start with
    | none => []
    | some idx =>
      if ((found_count : Int) + 1) ≥ max_snippets then [mkSnippet text q snippet_radius idx]
      else mkSnippet text q snippet_radius idx ::
        scanKey fuel text q max_snippets snippet_radius (idx + q.length) (found_count + 1)

/-- The keys searched by default:
`[k for k, v in tool_context.state.items() if isinstance(v, str)]`. -/
def textKeys (c : Ctx) : List Str :=
  (c.filter fun kv => match kv.2 with | .str _ => true | .other => false).map (·.1)

/-- The `keys_to_search` expression of agent.py line 136:
`memory_keys or [text keys]` — Python `or` takes the fallback both for
`None` and for a falsy (empty) explicit list. -/
def keysToSearch (memory_keys : Option (List Str)) (state : Ctx) : List Str :=
  match memory_keys with
  | none => textKeys state
  | some ks => if ks = [] then textKeys state else ks

/-- The `for key in keys_to_search` loop of agent.py lines 139-159: fetch
the value, skip non-string or empty values, scan, and record the key only
when at least one snippet was found. -/
def searchKeys (state : Ctx) (q : Str) (max_snippets snippet_radius : Int)
    (keys : List Str) : List KeyMatches :=
  keys.filterMap fun key =>
    match ctxGet state key with
    | some (.str text) =>
      if text = [] then none
      else
        let snippets := scanKey (text.length + 1) text q max_snippets snippet_radius 0 0
        if snippets = [] then none else some ⟨key, snippets⟩
    | _ => none

/-- Embedding of `search_memory` (agent.py lines 107-161).  `tool_context`
is `none` when the tool is invoked without an active memory scope;
`memory_keys = none` models the Python default `None`. -/
def search_memory (query : Str) (memory_keys : Option (List Str))
    (max_snippets snippet_radius : Int) (tool_context : Option Ctx) : SearchResult :=
  match tool_context with
  | none => .error "Session context missing".data
  | some state =>
    let q := pyStrip query
    if q = [] then .error "Query string is empty".data
    else .success q
      (searchKeys state q max_snippets snippet_radius (keysToSearch memory_keys state))

/-! ### The `read_pdf` tool (agent.py lines 33-99) -/

/-- Canonical résumé memory key (agent.py line 175). -/
def CV_MEMORY_KEY : Str := "pdf_resume_text".data

/-- Canonical job-description memory key (agent.py line 176). -/
def JD_MEMORY_KEY : Str := "job_description_text".data

/-- Helper for Python `str.split()`: walk the string accumulating the
current word (reversed); whitespace ends a word, empty pieces are
discarded. -/
def splitWsAux : Str → Str → List Str
  | [], acc => if acc = [] then [] else [acc.reverse]
  | c :: rest, acc =>
    if c.isWhitespace then
      (if acc = [] then splitWsAux rest [] else acc.reverse :: splitWsAux rest [])
    else splitWsAux rest (c :: acc)

/-- Python `text.split()` with no arguments: split on whitespace runs,
discarding empty pieces. -/
def splitWs (s : Str) : List Str := splitWsAux s []

/-- Python `sep.join(parts)` for a one-character separator. -/
def joinSep (sep : Char) : List Str → Str
  | [] => []
  | [x] => x
  | x :: xs => x ++ sep :: joinSep sep xs

/-- Per-page cleanup `" ".join(text.split())` (agent.py line 67). -/
def normWs (s : Str) : Str := joinSep ' ' (splitWs s)

/-- `full_content = "\n".join(chunks).strip()` over the per-page texts
(agent.py lines 62-69). -/
def fullContent (pages : List Str) : Str := pyStrip (joinSep '\n' (pages.map normWs))

/-- The truncation marker `"\n...[TRUNCATED]"` appended by `read_pdf`. -/
def TRUNC_MARKER : Str := "\n...[TRUNCATED]".data

/-- `truncated_content` (agent.py line 70): the full text if its length is
within `max_chars`, otherwise the Python prefix slice `[:max_chars]`
followed by the marker. -/
def truncatedContent (full_content : Str) (max_chars : Int) : Str :=
  if (full_content.length : Int) > max_chars then pySliceTo full_content max_chars ++ TRUNC_MARKER
  else full_content

/-- `any(k in mk for k in ("cv", "resume", "candidate"))` (agent.py line 84). -/
def cvMarker (mk : Str) : Bool :=
  containsSub mk "cv".data || containsSub mk "resume".data || containsSub mk "candidate".data

/-- `any(k in mk for k in ("job", "jd", "description"))` (agent.py line 86). -/
def jdMarker (mk : Str) : Bool :=
  containsSub mk "job".data || containsSub mk "jd".data || containsSub mk "description".data

/-- The session-state writes of a successful `read_pdf` (agent.py lines
79-87): store the content under `memory_key`, then alias-write the same
content to the canonical keys when the lowercased key carries a résumé or
job-description marker. -/
def writeExtracted (state : Ctx) (memory_key : Str) (content : Str) : Ctx :=
  let state1 := ctxSet state memory_key (.str content)
  let mk := pyLower memory_key
  let state2 := if cvMarker mk then ctxSet state1 CV_MEMORY_KEY (.str content) else state1
  if jdMarker mk then ctxSet state2 JD_MEMORY_KEY (.str content) else state2

/-- The status dictionary `read_pdf` returns: an error message, or the
success message together with `extracted_length`. -/
inductive ReadResult where
  | error (error_message : Str)
  | success (message : Str) (extracted_length : Nat)
deriving DecidableEq

/-- Embedding of `read_pdf` (agent.py lines 33-99).  `fileExists` models
`os.path.exists(file_path)`; `pages` is the outcome of the PyPDF2
extraction block, where `.error e` models an exception with type name `e`
raised while reading and `.ok ps` the list of per-page extracted texts.
The function returns the result dictionary together with the session
state after the call (unchanged on every error path). -/
def read_pdf (file_path : Str) (fileExists : Bool) (pages : Except Str (List Str))
    (memory_key : Str) (max_chars : Int) (tool_context : Option Ctx) :
    ReadResult × Option Ctx :=
  if fileExists = false then
    (.error ("File not found at path: ".data ++ file_path), tool_context)
  else
    match pages with
    | .error e => (.error ("Failed to read PDF. Internal error: ".data ++ e), tool_context)
    | .ok ps =>
      match tool_context with
      | some state =>
        (.success
            ("PDF text extracted successfully and saved to session memory under key: ".data
              ++ memory_key)
            (truncatedContent (fullContent ps) max_chars).length,
          some (writeExtracted state memory_key (truncatedContent (fullContent ps) max_chars)))
      | none => (.error "Session context missing, content not saved to memory.".data, none)

/-! ### Agents and the shared retry configuration (agent.py lines 17-23, 180-299) -/

/-- `google.genai.types.HttpRetryOptions` as configured in agent.py:
maximum attempts, exponential-backoff base, initial delay, and the HTTP
status codes that trigger a retry. -/
structure HttpRetryOptions where
  attempts : Nat
  exp_base : Nat
  initial_delay : Nat
  http_status_codes : List Nat
deriving DecidableEq

/-- The one shared retry configuration (agent.py lines 18-23):
`attempts = 5`, `exp_base = 7`, `initial_delay = 1`,
`http_status_codes = [429, 500, 503, 504]`. -/
def retry_config : HttpRetryOptions := ⟨5, 7, 1, [429, 500, 503, 504]⟩

/-- A `Gemini` model handle: model name and the retry options attached to
it. -/
structure GeminiModel where
  model : String
  retry_options : HttpRetryOptions
deriving DecidableEq

/-- The construction data of a `CapstoneSubAgent` relevant here: its
name, its model (carrying the retry options), and its output key. -/
structure SubAgent where
  name : String
  model : GeminiModel
  output_key : String
deriving DecidableEq

/-- agent.py lines 180-198. -/
def cv_loader_agent : SubAgent :=
  ⟨"cv_loader_agent", ⟨"gemini-2.5-flash", retry_config⟩, "cv_loader_result"⟩

/-- agent.py lines 201-219. -/
def jd_loader_agent : SubAgent :=
  ⟨"jd_loader_agent", ⟨"gemini-2.5-flash", retry_config⟩, "jd_loader_result"⟩

/-- agent.py lines 222-257. -/
def cv_screening_agent : SubAgent :=
  ⟨"cv_screening_agent", ⟨"gemini-2.5-flash", retry_config⟩, "cv_screening_result"⟩

/-- agent.py lines 262-299. -/
def talent_matching_agent : SubAgent :=
  ⟨"talent_matching_agent", ⟨"gemini-2.5-flash", retry_config⟩, "talent_matching_result"⟩

/-! ### Session get-or-create (agent.py lines 348-355) -/

/-- The identifier triple `(app_name, user_id, session_id)` under which
the session service stores sessions. -/
structure SessionId where
  app_name : String
  user_id : String
  session_id : String
deriving DecidableEq

/-- A stored session: its identifier and its accumulated key-value
state. -/
structure Session where
  id : SessionId
  state : List (String × String)
deriving DecidableEq

/-- The session store of an `InMemorySessionService`: identifiers to
stored sessions. -/
def SessionService : Type := SessionId → Option Session

/-- Modelled from the spec: `InMemorySessionService.get_session` (the
session service implementation is library code outside this repository) —
return the session stored under the identifier, or absent. -/
def get_session (svc : SessionService) (i : SessionId) : Option Session := svc i

/-- Modelled from the spec: `InMemorySessionService.create_session` —
create a fresh session with empty state under the identifier and store
it. -/
def create_session (svc : SessionService) (i : SessionId) : Session × SessionService :=
  (⟨i, []⟩, fun j => if j = i then some ⟨i, []⟩ else svc j)

/-- The get-or-create sequence of `main` (agent.py lines 348-355):
`get_session`, and `create_session` only when nothing was found. -/
def ensure_session (svc : SessionService) (i : SessionId) : Session × SessionService :=
  match get_session svc i with
  | some s => (s, svc)
  | none => create_session svc i

/-! ### Basic facts about the substring-search primitives -/

theorem startsWith_eq_true {s q : Str} (h : startsWith s q = true) :
    s.take q.length = q := by
  induction q generalizing s with
  | nil => simp
  | cons d q ih =>
    cases s with
    | nil => simp [startsWith] at h
    | cons c s =>
      simp only [startsWith, Bool.and_eq_true, decide_eq_true_eq] at h
      obtain ⟨rfl, h2⟩ := h
      simp [List.take, ih h2]

theorem findIn_some {q s : Str} {j : Nat} (h : findIn q s = some j) :
    j + q.length ≤ s.length ∧ (s.drop j).take q.length = q := by
  induction s generalizing j with
  | nil =>
    simp only [findIn] at h
    split at h
    · rename_i hsw
      have hq := startsWith_eq_true hsw
      simp only [List.take_nil] at hq
      cases h
      simp [← hq]
    · cases h
  | cons c s ih =>
    simp only [findIn] at h
    split at h
    · rename_i hsw
      have hq := startsWith_eq_true hsw
      cases h
      have hlen := congrArg List.length hq
      rw [List.length_take] at hlen
      refine ⟨by simp only [List.length_cons] at hlen ⊢; omega, by simpa using hq⟩
    · cases hx : findIn q s with
      | none => rw [hx] at h; cases h
      | some j' =>
        rw [hx] at h
        simp only [Option.map_some'] at h
        cases h
        obtain ⟨h1, h2⟩ := ih hx
        exact ⟨by simp; omega, by simpa using h2⟩

theorem findFrom_some {t q : Str} {start idx : Nat} (h : findFrom t q start = some idx) :
    start ≤ idx ∧ idx + q.length ≤ t.length ∧ (t.drop idx).take q.length = q := by
  unfold findFrom at h
  split at h
  · rename_i hle
    cases hx : findIn q (t.drop start) with
    | none => rw [hx] at h; cases h
    | some j =>
      rw [hx] at h
      simp only [Option.map_some'] at h
      cases h
      obtain ⟨h1, h2⟩ := findIn_some hx
      have hlen : (t.drop start).length = t.length - start := List.length_drop ..
      refine ⟨by omega, by omega, ?_⟩
      rw [List.drop_drop] at h2
      rw [Nat.add_comm start j] at h2
      exact h2
  · cases h

/-! ### Invariants of the per-key scan loop -/

theorem scanKey_zero {text q : Str} {ms r : Int} {start fnd : Nat} :
    scanKey 0 text q ms r start fnd = [] := rfl

theorem scanKey_succ {fuel : Nat} {text q : Str} {ms r : Int} {start fnd : Nat} :
    scanKey (fuel + 1) text q ms r start fnd =
      match findFrom text q start with
      | none => []
      | some i =>
        if ((fnd : Int) + 1) ≥ ms then [mkSnippet text q r i]
        else mkSnippet text q r i :: scanKey fuel text q ms r (i + q.length) (fnd + 1) := rfl

theorem scanKey_succ_none {fuel : Nat} {text q : Str} {ms r : Int} {start fnd : Nat}
    (h : findFrom text q start = none) :
    scanKey (fuel + 1) text q ms r start fnd = [] := by
  rw [scanKey_succ, h]

theorem scanKey_succ_some {fuel : Nat} {text q : Str} {ms r : Int} {start fnd idx : Nat}
    (h : findFrom text q start = some idx) :
    scanKey (fuel + 1) text q ms r start fnd =
      if ((fnd : Int) + 1) ≥ ms then [mkSnippet text q r idx]
      else mkSnippet text q r idx :: scanKey fuel text q ms r (idx + q.length) (fnd + 1) := by
  rw [scanKey_succ, h]

theorem scanKey_mem {fuel : Nat} {text q : Str} {ms r : Int} {start fnd : Nat} {s : Snippet}
    (hs : s ∈ scanKey fuel text q ms r start fnd) :
    start ≤ s.start ∧ s.«end» = s.start + q.length ∧ s.«end» ≤ text.length ∧
      (text.drop s.start).take q.length = q ∧
      s.text = pySlice text (max 0 ((s.start : Int) - r))
        (min (text.length : Int) ((s.start : Int) + (q.length : Int) + r)) := by
  induction fuel generalizing start fnd with
  | zero => rw [scanKey_zero] at hs; cases hs
  | succ fuel ih =>
    cases hf : findFrom text q start with
    | none => rw [scanKey_succ_none hf] at hs; cases hs
    | some idx =>
      rw [scanKey_succ_some hf] at hs
      obtain ⟨h1, h2, h3⟩ := findFrom_some hf
      split at hs
      · rw [List.mem_singleton] at hs
        subst hs
        exact ⟨h1, rfl, h2, h3, rfl⟩
      · rcases List.mem_cons.mp hs with rfl | hs'
        · exact ⟨h1, rfl, h2, h3, rfl⟩
        · obtain ⟨g1, g2, g3, g4, g5⟩ := ih hs'
          exact ⟨by omega, g2, g3, g4, g5⟩

theorem scanKey_pairwise {fuel : Nat} {text q : Str} {ms r : Int} {start fnd : Nat}
    (hq : q ≠ []) :
    List.Pairwise (fun a b => a.«end» ≤ b.start ∧ a.start < b.start)
      (scanKey fuel text q ms r start fnd) := by
  have hql : 1 ≤ q.length := by
    cases q with
    | nil => exact absurd rfl hq
    | cons _ _ => simp
  induction fuel generalizing start fnd with
  | zero => rw [scanKey_zero]; simp
  | succ fuel ih =>
    cases hf : findFrom text q start with
    | none => rw [scanKey_succ_none hf]; simp
    | some idx =>
      rw [scanKey_succ_some hf]
      split
      · simp
      · refine List.pairwise_cons.mpr ⟨?_, ih⟩
        intro b hb
        obtain ⟨g1, -, -, -, -⟩ := scanKey_mem hb
        constructor
        · exact g1
        · show idx < b.start
          omega

theorem scanKey_length {fuel : Nat} {text q : Str} {ms r : Int} {start fnd : Nat} :
    (scanKey fuel text q ms r start fnd).length ≤ max 1 (ms - (fnd : Int)).toNat := by
  induction fuel generalizing start fnd with
  | zero => rw [scanKey_zero]; simp
  | succ fuel ih =>
    cases hf : findFrom text q start with
    | none => rw [scanKey_succ_none hf]; simp
    | some idx =>
      rw [scanKey_succ_some hf]
      split
      · rename_i hbreak
        simp
      · rename_i hcont
        simp only [List.length_cons]
        have hrec := @ih (idx + q.length) (fnd + 1)
        push_cast at hcont hrec ⊢
        omega

/-! ### Inversion of a successful `search_memory` call -/

theorem search_memory_some_eq (query : Str) (mk : Option (List Str)) (ms r : Int) (c : Ctx) :
    search_memory query mk ms r (some c) =
      if pyStrip query = [] then .error "Query string is empty".data
      else .success (pyStrip query) (searchKeys c (pyStrip query) ms r (keysToSearch mk c)) :=
  rfl

theorem searchKeys_mem {state : Ctx} {q : Str} {ms r : Int} {keys : List Str}
    {m : KeyMatches} (hm : m ∈ searchKeys state q ms r keys) :
    ∃ text, ctxGet state m.memory_key = some (.str text) ∧ text ≠ [] ∧
      m.snippets = scanKey (text.length + 1) text q ms r 0 0 := by
  obtain ⟨key, hkey, hf⟩ := List.mem_filterMap.mp hm
  cases hv : ctxGet state key with
  | none => rw [hv] at hf; cases hf
  | some v =>
    cases v with
    | other => rw [hv] at hf; cases hf
    | str text =>
      rw [hv] at hf
      simp only at hf
      split at hf
      · cases hf
      · rename_i htext
        split at hf
        · cases hf
        · injection hf with hf
          subst hf
          exact ⟨text, hv, htext, rfl⟩

theorem search_memory_success_mem {query : Str} {mk : Option (List Str)} {ms r : Int}
    {c : Ctx} {q' : Str} {mtch : List KeyMatches} {m : KeyMatches}
    (h : search_memory query mk ms r (some c) = .success q' mtch) (hm : m ∈ mtch) :
    pyStrip query ≠ [] ∧ q' = pyStrip query ∧
      ∃ text, ctxGet c m.memory_key = some (.str text) ∧ text ≠ [] ∧
        m.snippets = scanKey (text.length + 1) text (pyStrip query) ms r 0 0 := by
  rw [search_memory_some_eq] at h
  split at h
  · cases h
  · rename_i hq
    injection h with h1 h2
    subst h1
    subst h2
    exact ⟨hq, rfl, searchKeys_mem hm⟩

/-- Under a non-negative radius the Python slice taken by the snippet
builder coincides with the plain clipped window
`[start - radius, end + radius) ∩ [0, length)` expressed in `Nat`
arithmetic. -/
theorem pySlice_window {text : Str} {st L : Nat} {r : Int} (hr : 0 ≤ r)
    (hL : st + L ≤ text.length) :
    pySlice text (max 0 ((st : Int) - r)) (min (text.length : Int) ((st : Int) + (L : Int) + r)) =
      (text.take (min text.length (st + L + r.toNat))).drop (st - r.toNat) := by
  unfold pySlice pyIdx
  rw [if_neg (by omega), if_neg (by omega)]
  have e1 : min (min (text.length : Int) ((st : Int) + (L : Int) + r)).toNat text.length
      = min text.length (st + L + r.toNat) := by omega
  have e2 : min (max 0 ((st : Int) - r)).toNat text.length = st - r.toNat := by omega
  rw [e1, e2]

/-! ### The claims about `search_memory` -/

/-- Claim C1: for every non-empty (after stripping) query and every
searched key, the match offset ranges `[start, end)` that `search_memory`
returns for that key are pairwise non-overlapping and appear in strictly
increasing left-to-right order, because each subsequent scan resumes
immediately after the previous match's end. -/
theorem search_memory_matches_ordered (query : Str) (mk : Option (List Str)) (ms r : Int)
    (c : Ctx) (q' : Str) (mtch : List KeyMatches) (m : KeyMatches)
    (h : search_memory query mk ms r (some c) = .success q' mtch) (hm : m ∈ mtch) :
    (∀ s ∈ m.snippets, s.start < s.«end») ∧
      List.Pairwise (fun a b => a.«end» ≤ b.start ∧ a.start < b.start) m.snippets := by
  obtain ⟨hq, -, text, -, -, hsn⟩ := search_memory_success_mem h hm
  have hql : 1 ≤ (pyStrip query).length := by
    cases hpq : pyStrip query with
    | nil => exact absurd hpq hq
    | cons _ _ => simp
  constructor
  · intro s hs
    rw [hsn] at hs
    obtain ⟨-, g2, -, -, -⟩ := scanKey_mem hs
    omega
  · rw [hsn]
    exact scanKey_pairwise hq

/-- Witness for C1 on a concrete run: query `"a"` over the value `"aa"`
yields the two matches `[0,1)` and `[1,2)`, ordered and non-overlapping. -/
theorem search_memory_matches_ordered_witness :
    (∀ s ∈ [Snippet.mk "a".data 0 1, Snippet.mk "a".data 1 2], s.start < s.«end») ∧
      List.Pairwise (fun a b => a.«end» ≤ b.start ∧ a.start < b.start)
        [Snippet.mk "a".data 0 1, Snippet.mk "a".data 1 2] :=
  search_memory_matches_ordered "a".data none 5 0 [("k".data, .str "aa".data)] "a".data
    [⟨"k".data, [⟨"a".data, 0, 1⟩, ⟨"a".data, 1, 2⟩]⟩]
    ⟨"k".data, [⟨"a".data, 0, 1⟩, ⟨"a".data, 1, 2⟩]⟩
    (by decide) (by decide)

/-- Claim C2 counterexample: `search_memory` may be called with a negative
`snippet_radius`, and then the snippet text is not the clipped window the
claim states.  With value `"abcdef"`, query `"a"` and radius `-3` the match
is `[0,1)`; the claimed window from `max(0, 0 - (-3)) = 3` to
`min(6, 1 + (-3)) = -2` is empty, yet the code's Python slice
`text[3:-2]` yields `"d"`. -/
theorem search_memory_snippet_window_cex :
    search_memory "a".data none 5 (-3) (some [("k".data, Value.str "abcdef".data)]) =
      .success "a".data [⟨"k".data, [⟨"d".data, 0, 1⟩]⟩] ∧
    ("abcdef".data.take ((min ("abcdef".data.length : Int) ((1 : Int) + (-3))).toNat)).drop
        ((max 0 ((0 : Int) - (-3))).toNat) = [] ∧
    "d".data ≠ ([] : Str) :=
  ⟨by decide, by decide, by decide⟩

/-- Claim C2 (amended): for every call with a non-negative
`snippet_radius`, every snippet reported for a key whose stored text is
`text` satisfies `0 ≤ start ≤ end ≤ text.length` (offsets are naturals,
so `0 ≤ start` is inherent), and the snippet text is the source text
sliced from `max(0, start - radius)` to `min(length, end + radius)` —
hence a verbatim substring of the key's value. -/
theorem search_memory_snippet_window (query : Str) (mk : Option (List Str)) (ms r : Int)
    (c : Ctx) (q' : Str) (mtch : List KeyMatches) (m : KeyMatches) (text : Str) (s : Snippet)
    (hr : 0 ≤ r)
    (h : search_memory query mk ms r (some c) = .success q' mtch) (hm : m ∈ mtch)
    (ht : ctxGet c m.memory_key = some (.str text)) (hs : s ∈ m.snippets) :
    s.start ≤ s.«end» ∧ s.«end» ≤ text.length ∧
      s.text = (text.take (min text.length (s.«end» + r.toNat))).drop (s.start - r.toNat) := by
  obtain ⟨hq, -, t2, ht2, -, hsn⟩ := search_memory_success_mem h hm
  have htt : t2 = text := by
    have := ht2.symm.trans ht
    simp only [Option.some.injEq, Value.str.injEq] at this
    exact this
  subst htt
  rw [hsn] at hs
  obtain ⟨g1, g2, g3, g4, g5⟩ := scanKey_mem hs
  refine ⟨by omega, g3, ?_⟩
  rw [g5, g2]
  exact pySlice_window hr (by omega)

/-- Witness for the amended C2 on a concrete run: query `"a"` over `"ab"`
with radius `1` yields the snippet `"ab"` for the match `[0,1)`. -/
theorem search_memory_snippet_window_witness :
    (0 : Nat) ≤ 1 ∧ (1 : Nat) ≤ "ab".data.length ∧
      "ab".data =
        ("ab".data.take (min "ab".data.length (1 + (1 : Int).toNat))).drop (0 - (1 : Int).toNat) :=
  search_memory_snippet_window "a".data none 1 1 [("k".data, .str "ab".data)] "a".data
    [⟨"k".data, [⟨"ab".data, 0, 1⟩]⟩] ⟨"k".data, [⟨"ab".data, 0, 1⟩]⟩ "ab".data ⟨"ab".data, 0, 1⟩
    (by decide) (by decide) (by decide) (by decide) (by decide)

/-- Claim C3 counterexample: with `max_snippets = 0` the loop still
returns one match per key that has any match (the count check runs only
after a snippet is appended), not zero as the claim states. -/
theorem search_memory_max_snippets_cex :
    search_memory "a".data none 0 80 (some [("k".data, Value.str "a".data)]) =
      .success "a".data [⟨"k".data, [⟨"a".data, 0, 1⟩]⟩] ∧
    ¬((1 : Nat) ≤ 0) :=
  ⟨by decide, by decide⟩

/-- Claim C3 (amended): for every call, at most `max 1 max_snippets`
matches are collected per searched key: at most `max_snippets` when
`max_snippets ≥ 1`, and at most one (not zero) when `max_snippets` is
zero or negative. -/
theorem search_memory_max_snippets_bound (query : Str) (mk : Option (List Str)) (ms r : Int)
    (c : Ctx) (q' : Str) (mtch : List KeyMatches) (m : KeyMatches)
    (h : search_memory query mk ms r (some c) = .success q' mtch) (hm : m ∈ mtch) :
    m.snippets.length ≤ max 1 ms.toNat := by
  obtain ⟨-, -, text, -, -, hsn⟩ := search_memory_success_mem h hm
  rw [hsn]
  have := @scanKey_length (text.length + 1) text (pyStrip query) ms r 0 0
  omega

/-- Witness for the amended C3 on a concrete run: `max_snippets = 2` over
the value `"a"` returns one snippet, within the bound `max 1 2`. -/
theorem search_memory_max_snippets_bound_witness :
    ([⟨"a".data, 0, 1⟩] : List Snippet).length ≤ max 1 (2 : Int).toNat :=
  search_memory_max_snippets_bound "a".data none 2 80 [("k".data, .str "a".data)] "a".data
    [⟨"k".data, [⟨"a".data, 0, 1⟩]⟩] ⟨"k".data, [⟨"a".data, 0, 1⟩]⟩
    (by decide) (by decide)

/-- Claim C4: `search_memory` returns an error result if and only if the
context is missing (the NoContext failure, checked first) or the query is
empty or whitespace-only after stripping (the EmptyQuery failure); in
every other case the result is a success (`errMsg` is `none` exactly on
the success constructor). -/
theorem search_memory_error_iff (query : Str) (mk : Option (List Str)) (ms r : Int)
    (ctx : Option Ctx) :
    (search_memory query mk ms r ctx).errMsg =
      if ctx = none then some "Session context missing".data
      else if pyStrip query = [] then some "Query string is empty".data
      else none := by
  cases ctx with
  | none => rfl
  | some c =>
    rw [search_memory_some_eq]
    by_cases hq : pyStrip query = []
    · rw [if_pos hq, if_neg (by simp), if_pos hq]
      rfl
    · rw [if_neg hq, if_neg (by simp), if_neg hq]
      rfl

/-- Claim C9: passing `memory_keys = []` behaves identically to omitting
the argument (`None`): Python's `or` treats the empty list as falsy, so
both fall back to the dynamic default of all string-valued keys. -/
theorem search_memory_empty_keys_default (query : Str) (ms r : Int) (ctx : Option Ctx) :
    search_memory query (some []) ms r ctx = search_memory query none ms r ctx := by
  cases ctx with
  | none => rfl
  | some c => rfl

/-! ### Dictionary update facts -/

theorem ctxGet_ctxSet (c : Ctx) (k : Str) (v : Value) :
    ctxGet (ctxSet c k v) k = some v := by
  induction c with
  | nil => simp [ctxGet, ctxSet]
  | cons kv rest ih =>
    obtain ⟨k0, v0⟩ := kv
    by_cases hk : k0 = k
    · simp [ctxGet, ctxSet, hk]
    · simp [ctxGet, ctxSet, hk, ih]

theorem ctxGet_ctxSet_other (c : Ctx) (k k' : Str) (v : Value) (h : k' ≠ k) :
    ctxGet (ctxSet c k v) k' = ctxGet c k' := by
  have hne : k ≠ k' := fun hh => h (Eq.symm hh)
  induction c with
  | nil =>
    simp only [ctxSet, ctxGet]
    rw [if_neg hne]
  | cons kv rest ih =>
    obtain ⟨k0, v0⟩ := kv
    simp only [ctxSet]
    by_cases hk : k0 = k
    · rw [if_pos hk]
      subst hk
      simp only [ctxGet]
      rw [if_neg hne, if_neg hne]
    · rw [if_neg hk]
      simp only [ctxGet]
      by_cases hk' : k0 = k'
      · rw [if_pos hk', if_pos hk']
      · rw [if_neg hk', if_neg hk', ih]

/-- A write of the same value under any key preserves an existing
lookup result holding that value. -/
theorem ctxGet_ctxSet_keep {c : Ctx} {k k2 : Str} {v : Value} (h : ctxGet c k = some v) :
    ctxGet (ctxSet c k2 v) k = some v := by
  by_cases hk : k = k2
  · subst hk
    exact ctxGet_ctxSet ..
  · rw [ctxGet_ctxSet_other c k2 k v hk]
    exact h

theorem writeExtracted_get_key (state : Ctx) (k t : Str) :
    ctxGet (writeExtracted state k t) k = some (.str t) := by
  have h0 : ctxGet (ctxSet state k (.str t)) k = some (.str t) := ctxGet_ctxSet ..
  by_cases hcv : cvMarker (pyLower k) = true <;>
    by_cases hjd : jdMarker (pyLower k) = true <;>
    simp only [writeExtracted, hcv, hjd, if_true, if_false, Bool.false_eq_true, ite_true,
      ite_false]
  · exact ctxGet_ctxSet_keep (ctxGet_ctxSet_keep h0)
  · exact ctxGet_ctxSet_keep h0
  · exact ctxGet_ctxSet_keep h0
  · exact h0

theorem writeExtracted_get_cv (state : Ctx) (k t : Str)
    (hcv : cvMarker (pyLower k) = true) :
    ctxGet (writeExtracted state k t) CV_MEMORY_KEY = some (.str t) := by
  by_cases hjd : jdMarker (pyLower k) = true <;>
    simp only [writeExtracted, hcv, hjd, if_true, if_false, Bool.false_eq_true, ite_true,
      ite_false]
  · exact ctxGet_ctxSet_keep (ctxGet_ctxSet ..)
  · exact ctxGet_ctxSet ..

theorem writeExtracted_get_jd (state : Ctx) (k t : Str)
    (hjd : jdMarker (pyLower k) = true) :
    ctxGet (writeExtracted state k t) JD_MEMORY_KEY = some (.str t) := by
  by_cases hcv : cvMarker (pyLower k) = true <;>
    simp only [writeExtracted, hcv, hjd, if_true, if_false, Bool.false_eq_true, ite_true,
      ite_false] <;>
    exact ctxGet_ctxSet ..

/-! ### Truncation facts -/

theorem take_min_length {α : Type} (l : List α) (n : Nat) :
    l.take (min n l.length) = l.take n := by
  rcases le_total n l.length with h | h
  · rw [min_eq_left h]
  · rw [min_eq_right h, List.take_length, List.take_of_length_le h]

theorem truncatedContent_spec {full : Str} {mc : Int} (hmc : 0 ≤ mc) :
    (((full.length : Int) ≤ mc → truncatedContent full mc = full) ∧
      (mc < (full.length : Int) →
        truncatedContent full mc = full.take mc.toNat ++ TRUNC_MARKER) ∧
      ((truncatedContent full mc).length : Int) ≤ mc + 15) := by
  have hmark : TRUNC_MARKER.length = 15 := rfl
  unfold truncatedContent
  by_cases hlen : (full.length : Int) > mc
  · rw [if_pos hlen]
    have hslice : pySliceTo full mc = full.take mc.toNat := by
      unfold pySliceTo pyIdx
      rw [if_neg (by omega)]
      exact take_min_length full mc.toNat
    refine ⟨fun hc => absurd hc (by omega), fun _ => by rw [hslice], ?_⟩
    rw [hslice]
    rw [List.length_append, List.length_take, hmark]
    omega
  · rw [if_neg hlen]
    exact ⟨fun _ => rfl, fun hc => absurd hc (by omega), by omega⟩

/-! ### The claims about `read_pdf` -/

/-- Claim C5: whenever `read_pdf` successfully stores extracted text
under `memory_key`, then if the lowercased key carries a résumé marker
(`cv`, `resume`, `candidate`) the identical content is also stored under
the canonical key `pdf_resume_text`, and if it carries a job-description
marker (`job`, `jd`, `description`) the identical content is also stored
under `job_description_text`. -/
theorem read_pdf_alias_write (file_path : Str) (fileExists : Bool)
    (pages : Except Str (List Str)) (memory_key : Str) (mc : Int) (ctx : Option Ctx)
    (msg : Str) (n : Nat) (ctx' : Option Ctx)
    (h : read_pdf file_path fileExists pages memory_key mc ctx = (.success msg n, ctx')) :
    ∃ c' t, ctx' = some c' ∧ ctxGet c' memory_key = some (.str t) ∧
      (cvMarker (pyLower memory_key) = true → ctxGet c' CV_MEMORY_KEY = some (.str t)) ∧
      (jdMarker (pyLower memory_key) = true → ctxGet c' JD_MEMORY_KEY = some (.str t)) := by
  unfold read_pdf at h
  split at h
  · simp at h
  · split at h
    · simp at h
    · rename_i ps
      split at h
      · rename_i state
        simp only [Prod.mk.injEq] at h
        obtain ⟨hres, hctx⟩ := h
        refine ⟨writeExtracted state memory_key (truncatedContent (fullContent ps) mc),
          truncatedContent (fullContent ps) mc, hctx.symm,
          writeExtracted_get_key .., fun hc => writeExtracted_get_cv _ _ _ hc,
          fun hj => writeExtracted_get_jd _ _ _ hj⟩
      · simp at h

/-- Witness for C5 on a concrete run: one page `"r"` stored under key
`"cv"` is alias-written to the canonical résumé key. -/
theorem read_pdf_alias_write_witness :
    ∃ c' t,
      (some [("cv".data, Value.str "r".data), (CV_MEMORY_KEY, Value.str "r".data)] :
        Option Ctx) = some c' ∧
      ctxGet c' "cv".data = some (.str t) ∧
      (cvMarker (pyLower "cv".data) = true → ctxGet c' CV_MEMORY_KEY = some (.str t)) ∧
      (jdMarker (pyLower "cv".data) = true → ctxGet c' JD_MEMORY_KEY = some (.str t)) :=
  read_pdf_alias_write "p".data true (.ok ["r".data]) "cv".data 100 (some [])
    ("PDF text extracted successfully and saved to session memory under key: ".data
      ++ "cv".data) 1
    (some [("cv".data, Value.str "r".data), (CV_MEMORY_KEY, Value.str "r".data)])
    (by decide)

/-- Claim C6: when the file does not exist or PDF extraction raises, the
result status is an error and the session state is returned unchanged —
nothing is written. -/
theorem read_pdf_error_preserves_state (file_path : Str) (fileExists : Bool)
    (pages : Except Str (List Str)) (memory_key : Str) (mc : Int) (ctx : Option Ctx)
    (h : fileExists = false ∨ ∃ e, pages = .error e) :
    ∃ msg, read_pdf file_path fileExists pages memory_key mc ctx = (.error msg, ctx) := by
  rcases h with rfl | ⟨e, rfl⟩
  · exact ⟨_, rfl⟩
  · cases fileExists
    · exact ⟨_, rfl⟩
    · exact ⟨_, rfl⟩

/-- Witness for C6 on a concrete run: a missing file leaves the state
untouched and reports an error. -/
theorem read_pdf_error_preserves_state_witness :
    ∃ msg, read_pdf "p".data false (.ok []) "k".data 100 (some [("a".data, Value.other)]) =
      (.error msg, some [("a".data, Value.other)]) :=
  read_pdf_error_preserves_state "p".data false (.ok []) "k".data 100
    (some [("a".data, Value.other)]) (Or.inl rfl)

/-- Claim C10 counterexample: `max_chars` may be negative, and then the
stored value is not "the first max_chars characters plus the marker" and
its length exceeds `max_chars` by more than 15.  With one page `"ab"` and
`max_chars = -1`, Python's `full_content[:-1]` keeps the first character,
so the stored value is `"a\n...[TRUNCATED]"` of length 16 > -1 + 15. -/
theorem read_pdf_truncation_cex :
    read_pdf "p".data true (.ok ["ab".data]) "k".data (-1) (some []) =
      (.success
          ("PDF text extracted successfully and saved to session memory under key: ".data
            ++ "k".data) 16,
        some [("k".data, Value.str ("a".data ++ TRUNC_MARKER))]) ∧
    ¬((16 : Int) ≤ -1 + 15) :=
  ⟨by decide, by decide⟩

/-- Claim C10 (amended): for every successful `read_pdf` call with a
non-negative `max_chars`, the stored value is the full extracted text
when its length is at most `max_chars`, and otherwise the first
`max_chars` characters followed by the 15-character marker
`"\n...[TRUNCATED]"` — so the stored length is at most `max_chars + 15` —
and the returned `extracted_length` equals the stored value's length. -/
theorem read_pdf_truncation (file_path : Str) (ps : List Str) (memory_key : Str) (mc : Int)
    (c : Ctx) (msg : Str) (n : Nat) (ctx' : Option Ctx)
    (hmc : 0 ≤ mc)
    (h : read_pdf file_path true (.ok ps) memory_key mc (some c) = (.success msg n, ctx')) :
    ∃ c' t, ctx' = some c' ∧ ctxGet c' memory_key = some (.str t) ∧ n = t.length ∧
      TRUNC_MARKER.length = 15 ∧
      (((fullContent ps).length : Int) ≤ mc → t = fullContent ps) ∧
      (mc < ((fullContent ps).length : Int) →
        t = (fullContent ps).take mc.toNat ++ TRUNC_MARKER) ∧
      (t.length : Int) ≤ mc + 15 := by
  have h' : ((.success
        ("PDF text extracted successfully and saved to session memory under key: ".data
          ++ memory_key)
        (truncatedContent (fullContent ps) mc).length : ReadResult),
      (some (writeExtracted c memory_key (truncatedContent (fullContent ps) mc)) :
        Option Ctx)) = (.success msg n, ctx') := h
  simp only [Prod.mk.injEq] at h'
  obtain ⟨hres, hctx⟩ := h'
  injection hres with hmsg hlen
  obtain ⟨hfit, hover, hbound⟩ := @truncatedContent_spec (fullContent ps) mc hmc
  exact ⟨writeExtracted c memory_key (truncatedContent (fullContent ps) mc),
    truncatedContent (fullContent ps) mc, hctx.symm, writeExtracted_get_key .., hlen.symm,
    rfl, hfit, hover, hbound⟩

/-- Witness for the amended C10 on a concrete run: one page `"abcdef"`
with `max_chars = 3` stores `"abc\n...[TRUNCATED]"` of length 18 ≤ 3 + 15. -/
theorem read_pdf_truncation_witness :
    ∃ c' t,
      (some [("k".data, Value.str ("abc".data ++ TRUNC_MARKER))] : Option Ctx) = some c' ∧
      ctxGet c' "k".data = some (.str t) ∧ (18 : Nat) = t.length ∧
      TRUNC_MARKER.length = 15 ∧
      (((fullContent ["abcdef".data]).length : Int) ≤ 3 → t = fullContent ["abcdef".data]) ∧
      ((3 : Int) < ((fullContent ["abcdef".data]).length : Int) →
        t = (fullContent ["abcdef".data]).take (3 : Int).toNat ++ TRUNC_MARKER) ∧
      (t.length : Int) ≤ 3 + 15 :=
  read_pdf_truncation "p".data ["abcdef".data] "k".data 3 []
    ("PDF text extracted successfully and saved to session memory under key: ".data
      ++ "k".data) 18
    (some [("k".data, Value.str ("abc".data ++ TRUNC_MARKER))])
    (by decide) (by decide)

/-! ### Claim about the shared retry policy -/

/-- Claim C7: all four reasoning agents attach the one shared retry
policy — 5 maximum attempts, exponential backoff base 7, initial delay 1,
retryable status codes 429, 500, 503 and 504 — and none defines its own:
each agent's model carries exactly `retry_config`. -/
theorem retry_policy_uniform :
    cv_loader_agent.model.retry_options = retry_config ∧
      jd_loader_agent.model.retry_options = retry_config ∧
      cv_screening_agent.model.retry_options = retry_config ∧
      talent_matching_agent.model.retry_options = retry_config ∧
      retry_config = ⟨5, 7, 1, [429, 500, 503, 504]⟩ :=
  ⟨rfl, rfl, rfl, rfl, rfl⟩

/-! ### Claim about session creation -/

/-- Claim C8: the get-or-create sequence of `main` is idempotent — run
twice against the same identifier it returns the same session and leaves
the same store as running it once, reusing (not resetting) an existing
session. -/
theorem ensure_session_idempotent (svc : SessionService) (i : SessionId) :
    ensure_session (ensure_session svc i).2 i = ensure_session svc i := by
  unfold ensure_session get_session create_session
  cases h : svc i with
  | some s => simp [h]
  | none => simp [h]

end RoleFit
